import Mathlib

/-!
Verification of the influxdb client library (quoting, statement building,
response-to-table mapping) against its natural-language specification.
Strings are modelled as Lean `String` values; character-level operations
work on `String.data` (a `List Char`), which matches the source's
byte-level operations since every string involved is ASCII.
-/

set_option maxHeartbeats 1000000

namespace Influx

/-! ## Identifier quoting (src/quote.go) -/

/-- First pass of `escapeString`: replace every backslash by two backslashes,
modelling `strings.Replace(value, backslash, backslash-backslash, -1)`
(left-to-right, all occurrences). -/
def escB : List Char → List Char
| [] => []
| c :: rest => if c = '\\' then '\\' :: '\\' :: escB rest else c :: escB rest

/-- Second pass of `escapeString`: replace every double quote by
backslash-quote, modelling `strings.Replace(value, quote, backslash-quote, -1)`. -/
def escQ : List Char → List Char
| [] => []
| c :: rest => if c = '"' then '\\' :: '"' :: escQ rest else c :: escQ rest

/-- `escapeString` from src/quote.go: escape backslashes first, then double
quotes, in that order. -/
def escapeString (value : String) : String := ⟨escQ (escB value.data)⟩

/-- First character class of the bare-identifier regexp `[A-Za-z_]`. -/
def isIdentStart (c : Char) : Bool := c.isAlpha || c = '_'

/-- Subsequent character class of the bare-identifier regexp `[A-Za-z0-9_]`. -/
def isIdentChar (c : Char) : Bool := c.isAlphanum || c = '_'

/-- `isBareIdentifier` from src/quote.go: the anchored regexp
`^[A-Za-z_][A-Za-z0-9_]*$`. -/
def isBareIdentifier (value : String) : Bool :=
  match value.data with
  | [] => false
  | c :: rest => isIdentStart c && rest.all isIdentChar

/-- `Quote` from src/quote.go: empty and bare identifiers pass through
unchanged, anything else is wrapped in double quotes with its content
escaped. -/
def Quote (value : String) : String :=
  if value = "" then value
  else if isBareIdentifier value then value
  else "\"" ++ escapeString value ++ "\""

/-- Modelled from the spec: `QuoteIdentifier` is called by `DataSource.String`
and the admin commands but its definition is not among the sources; spec
section 4.1 describes a single identifier quoter (the one of src/quote.go),
so it coincides with `Quote`. -/
def QuoteIdentifier (value : String) : String := Quote value

/-! ## The un-escaping operation described by the spec's round-trip property
(spec section 8): strip the outer quotes, then replace backslash-quote by
quote, then backslash-backslash by backslash, left-to-right. -/

/-- Replace every (non-overlapping, left-to-right) occurrence of
backslash-quote by a quote. -/
def unescQ : List Char → List Char
| [] => []
| [c] => [c]
| c1 :: c2 :: rest =>
  if c1 = '\\' ∧ c2 = '"' then '"' :: unescQ rest
  else c1 :: unescQ (c2 :: rest)

/-- Replace every (non-overlapping, left-to-right) occurrence of
backslash-backslash by a single backslash. -/
def unescB : List Char → List Char
| [] => []
| [c] => [c]
| c1 :: c2 :: rest =>
  if c1 = '\\' ∧ c2 = '\\' then '\\' :: unescB rest
  else c1 :: unescB (c2 :: rest)

/-- The inverse operation stated by the spec: drop the outer quotes, undo the
quote escaping, then undo the backslash escaping. -/
def unescape (s : String) : String := ⟨unescB (unescQ ((s.data.drop 1).dropLast))⟩

/-! ## Round-trip lemmas -/

theorem escQ_eq_nil {l : List Char} (h : escQ l = []) : l = [] := by
  cases l with
  | nil => rfl
  | cons c cs =>
    exfalso
    by_cases hc : c = '"' <;> simp [escQ, hc] at h

theorem escB_eq_nil {l : List Char} (h : escB l = []) : l = [] := by
  cases l with
  | nil => rfl
  | cons c cs =>
    exfalso
    by_cases hc : c = '\\' <;> simp [escB, hc] at h

theorem escQ_ne_quote_cons (l rest : List Char) : escQ l ≠ '"' :: rest := by
  cases l with
  | nil => simp [escQ]
  | cons c cs =>
    by_cases hc : c = '"'
    · subst hc
      simp [escQ]
    · simp [escQ, hc]

theorem unescQ_escQ (l : List Char) : unescQ (escQ l) = l := by
  induction l with
  | nil => simp [escQ, unescQ]
  | cons c cs ih =>
    by_cases hq : c = '"'
    · subst hq
      simp only [escQ, if_pos rfl]
      simp [unescQ, ih]
    · have hstep : escQ (c :: cs) = c :: escQ cs := by simp [escQ, hq]
      rw [hstep]
      cases hcs : escQ cs with
      | nil =>
        have : cs = [] := escQ_eq_nil hcs
        subst this
        simp [unescQ]
      | cons z zs =>
        have hz : z ≠ '"' := by
          intro hzq
          subst hzq
          exact escQ_ne_quote_cons cs zs hcs
        have hcond : ¬(c = '\\' ∧ z = '"') := fun hand => hz hand.2
        simp only [unescQ, if_neg hcond]
        rw [← hcs, ih]

theorem unescB_escB (l : List Char) : unescB (escB l) = l := by
  induction l with
  | nil => simp [escB, unescB]
  | cons c cs ih =>
    by_cases hb : c = '\\'
    · subst hb
      simp only [escB, if_pos rfl]
      simp [unescB, ih]
    · have hstep : escB (c :: cs) = c :: escB cs := by simp [escB, hb]
      rw [hstep]
      cases hcs : escB cs with
      | nil =>
        have : cs = [] := escB_eq_nil hcs
        subst this
        simp [unescB]
      | cons z zs =>
        have hcond : ¬(c = '\\' ∧ z = '\\') := fun hand => hb hand.1
        simp only [unescB, if_neg hcond]
        rw [← hcs, ih]

theorem data_append (a b : String) : (a ++ b).data = a.data ++ b.data := by
  cases a
  cases b
  rfl

theorem not_bare_of_mem {x : String} {c : Char} (hc : c ∈ x.data)
    (h1 : isIdentStart c = false) (h2 : isIdentChar c = false) :
    isBareIdentifier x = false := by
  unfold isBareIdentifier
  cases hd : x.data with
  | nil => rfl
  | cons a rest =>
    rw [hd] at hc
    rcases List.mem_cons.mp hc with h | h
    · subst h
      simp [h1]
    · have hall : rest.all isIdentChar = false := by
        rcases Bool.eq_false_or_eq_true (rest.all isIdentChar) with ht | hf
        · exfalso
          have := List.all_eq_true.mp ht c h
          rw [h2] at this
          exact Bool.false_ne_true this
        · exact hf
      simp [hall]

/-! ## Statement builder (src/cmd/influx_ctl/main.go, package influxdb part) -/

/-- Go `strings.Join`: first element, then separator-prefixed rest. -/
def join (sep : String) : List String → String
| [] => ""
| x :: xs => xs.foldl (fun acc e => acc ++ sep ++ e) x

/-- Go `strings.TrimSuffix`: cut the suffix when present, otherwise return
the string unchanged. -/
def trimSuffix (s suf : String) : String :=
  if suf.data.isSuffixOf s.data then ⟨s.data.take (s.data.length - suf.data.length)⟩
  else s

/-- Whitespace in the sense of Go `strings.TrimSpace` (the ASCII forms that
can occur in rendered statements). -/
def isSpace (c : Char) : Bool := c = ' ' || c = '\t' || c = '\n' || c = '\r'

/-- Go `strings.TrimSpace`: drop leading and trailing whitespace. -/
def trimSpace (s : String) : String :=
  ⟨((s.data.dropWhile isSpace).reverse.dropWhile isSpace).reverse⟩

/-- `DataSource` from the source, fields in source order. -/
structure DataSource where
  measurement : String
  database : String
  retentionPolicy : String
  deriving DecidableEq

/-- `DataSource.String` from the source: collect the present segments in the
order database, retention policy, measurement — inserting an empty
placeholder segment when a database is present but the retention policy is
absent — and join them with dots. -/
def DataSource.toString (f : DataSource) : String :=
  join "."
    ((if f.database ≠ "" then [QuoteIdentifier f.database] else []) ++
     (if f.retentionPolicy ≠ "" then [QuoteIdentifier f.retentionPolicy]
      else if f.database ≠ "" then [""] else []) ++
     (if f.measurement ≠ "" then [QuoteIdentifier f.measurement] else []))

/-- The `offsetlimit` struct from the source (Go `uint` fields become `Nat`). -/
structure OffsetLimit where
  limit : Nat
  offset : Nat
  deriving DecidableEq

/-- `offsetlimit.String` from the source: empty when both fields are zero,
otherwise the space-prefixed clauses with the outer whitespace trimmed. -/
def OffsetLimit.toString (o : OffsetLimit) : String :=
  if o.limit = 0 ∧ o.offset = 0 then ""
  else trimSpace ((if o.limit > 0 then " LIMIT " ++ o.limit.repr else "") ++
                  (if o.offset > 0 then " OFFSET " ++ o.offset.repr else ""))

/-- The `columns` struct from the source. -/
structure Columns where
  value : String
  deriving DecidableEq

/-- `columns.String` from the source. -/
def Columns.toString (c : Columns) : String := if c.value = "" then "*" else c.value

/-- The statement struct `s` from the source. -/
structure S where
  d : List DataSource
  c : Option Columns
  o : Option OffsetLimit
  deriving DecidableEq

/-- `s.Limit` from the source. -/
def S.Limit (this : S) (limit : Nat) : S :=
  match this.o with
  | none => { this with o := some ⟨limit, 0⟩ }
  | some o => { this with o := some { o with limit := limit } }

/-- `s.Offset` from the source. -/
def S.Offset (this : S) (offset : Nat) : S :=
  match this.o with
  | none => { this with o := some ⟨0, offset⟩ }
  | some o => { this with o := some { o with offset := offset } }

/-- `s.Columns` from the source: the empty string clears the column spec. -/
def S.Columns (this : S) (value : String) : S :=
  if value = "" then { this with c := none } else { this with c := some ⟨value⟩ }

/-- `s.Statement` from the source: SELECT, column spec or `*`, the
comma-joined data sources after ` FROM ` (built by appending a comma after
each source and trimming the final one), and the offset/limit clause
preceded by one space whenever the offsetlimit struct was allocated. -/
def S.Statement (this : S) : String :=
  let q := "SELECT " ++ (match this.c with | some c => c.toString | none => "*")
  let q := if this.d.length > 0 then
      trimSuffix (this.d.foldl (fun acc ds => acc ++ ds.toString ++ ",") (q ++ " FROM ")) ","
    else q
  match this.o with
  | some o => q ++ " " ++ o.toString
  | none => q

/-- `Client.Select` from the source: Go returns a nil Statement (here `none`)
when called with no data sources, otherwise the statement struct holding
exactly the given sources. -/
def Select (sources : List DataSource) : Option S :=
  if sources.length = 0 then none else some ⟨sources, none, none⟩

/-- Claim C7: for every string containing backslashes and/or double quotes,
un-escaping the result of `Quote` (stripping the outer double quotes, then
replacing backslash-quote by quote, then backslash-backslash by backslash,
in that reverse order) recovers exactly the original string. -/
theorem c7_quote_roundtrip (x : String)
    (h : '\\' ∈ x.data ∨ '"' ∈ x.data) : unescape (Quote x) = x := by
  have hne : x ≠ "" := by
    intro he
    subst he
    have hnil : ("" : String).data = [] := rfl
    rw [hnil] at h
    rcases h with h | h <;> exact absurd h (List.not_mem_nil _)
  have hbare : isBareIdentifier x = false := by
    rcases h with h | h
    · exact not_bare_of_mem h (by decide) (by decide)
    · exact not_bare_of_mem h (by decide) (by decide)
  have hq : Quote x = "\"" ++ escapeString x ++ "\"" := by
    simp [Quote, hne, hbare]
  rw [hq]
  unfold unescape
  have hdata : ("\"" ++ escapeString x ++ "\"").data
      = '"' :: (escQ (escB x.data) ++ ['"']) := by
    rw [data_append, data_append]
    rfl
  rw [hdata]
  simp only [List.drop_succ_cons, List.drop_zero]
  rw [List.dropLast_concat, unescQ_escQ, unescB_escB]

/-- Witness for claim C7 at the concrete input consisting of a single
backslash between two letters. -/
theorem c7_witness :
    ('\\' ∈ ("a\\b" : String).data ∨ '"' ∈ ("a\\b" : String).data) ∧
    unescape (Quote "a\\b") = "a\\b" :=
  ⟨Or.inl (by decide), c7_quote_roundtrip "a\\b" (Or.inl (by decide))⟩

/-! ## Response-to-table mapping (src/influxdb.go) -/

/-- A decoded wire value: the transport decodes JSON cells into strings,
numbers, booleans or null, and src/influxdb.go never coerces them. -/
inductive Value where
  | str (s : String)
  | num (n : Int)
  | boolean (b : Bool)
  | null
  deriving DecidableEq

/-- The error values of src/influxdb.go. -/
inductive Err where
  | notConnected
  | unexpectedResponse
  | emptyResponse
  deriving DecidableEq

/-- One decoded series (the external client library's `models.Row` as read by
`Client.Query`). The Go `Partial` field is called `truncated` here because
its name is a Lean keyword. -/
structure Series where
  name : String
  tags : List (String × String)
  columns : List String
  values : List (List Value)
  truncated : Bool
  deriving DecidableEq

/-- One result of a decoded response; the source only reads its `Series`
slice, for which a nil slice and an empty slice are treated alike, so both
are the empty list here. -/
structure QueryResult where
  series : List Series
  deriving DecidableEq

/-- A decoded response whose transport-level error was already checked by
the private `query` helper. -/
structure Response where
  results : List QueryResult
  deriving DecidableEq

/-- The `Table` structure as populated by `Client.Query` (fields `Name`,
`Tags`, `Columns`, `Values`, `Partial`; the last renamed as in `Series`). -/
structure Table where
  name : String
  tags : List (String × String)
  columns : List String
  values : List (List Value)
  truncated : Bool
  deriving DecidableEq

/-- `Client.Query` from src/influxdb.go: `ErrEmptyResponse` unless there is
exactly one result (the `[res]` pattern is Go's `len(response.Results) != 1`
check) with a non-empty series slice, otherwise the first series copied
field by field into a `Table`. -/
def Query (r : Response) : Except Err Table :=
  match r.results with
  | [res] =>
    match res.series with
    | [] => Except.error Err.emptyResponse
    | srs :: _ => Except.ok ⟨srs.name, srs.tags, srs.columns, srs.values, srs.truncated⟩
  | _ => Except.error Err.emptyResponse

/-- Outcome of `queryScalar`, with a distinguished constructor for the Go
runtime panic an out-of-bounds index would raise. -/
inductive ScalarResult where
  | outOfBounds
  | err (e : Err)
  | ok (vs : List String)
  deriving DecidableEq

/-- Lift the row-collection result into a `ScalarResult`. -/
def ScalarResult.ofExcept : Except Err (List String) → ScalarResult
  | Except.ok vs => ScalarResult.ok vs
  | Except.error e => ScalarResult.err e

/-- The row loop of `queryScalar`: each row must hold exactly one value and
that value must be a string; the strings are collected in response order. -/
def collectScalars : List (List Value) → Except Err (List String)
  | [] => Except.ok []
  | row :: rest =>
    if row.length ≠ 1 then Except.error Err.unexpectedResponse
    else
      match row.head? with
      | some (Value.str v) =>
        match collectScalars rest with
        | Except.ok vs => Except.ok (v :: vs)
        | Except.error e => Except.error e
      | _ => Except.error Err.unexpectedResponse

/-- The table-level part of `queryScalar` from src/influxdb.go. The Go
early-return tests `table.Name != dataset` and
`len(table.Columns) != 1 && table.Columns[0] != column` appear here with the
conditions stated positively: when the column count is not one, Go evaluates
`table.Columns[0]`, which panics (`outOfBounds`) on an empty column list,
and by short-circuiting skips the name comparison entirely when the count
is one. -/
def queryScalarT (t : Table) (dataset column : String) : ScalarResult :=
  if t.name = dataset then
    if t.columns.length = 1 then ScalarResult.ofExcept (collectScalars t.values)
    else
      match t.columns with
      | [] => ScalarResult.outOfBounds
      | c0 :: _ =>
        if c0 = column then ScalarResult.ofExcept (collectScalars t.values)
        else ScalarResult.err Err.unexpectedResponse
  else ScalarResult.err Err.unexpectedResponse

/-- `queryScalar` from src/influxdb.go: map the response, then run the
table-level checks. -/
def queryScalar (r : Response) (dataset column : String) : ScalarResult :=
  match Query r with
  | Except.error e => ScalarResult.err e
  | Except.ok t => queryScalarT t dataset column

/-! ## Client getters (src/influxdb.go) -/

/-- The claim-relevant state of a `Client`: `connected` models
`this.client != nil`; the log, address and transport configuration fields
play no part in the getters. -/
structure Client where
  connected : Bool
  database : String
  version : String
  deriving DecidableEq

/-- `Client.GetVersion` from the source: empty string when the transport
handle is nil. -/
def Client.GetVersion (c : Client) : String :=
  if c.connected then c.version else ""

/-- `Client.GetDatabase` from the source: empty string when the transport
handle is nil. -/
def Client.GetDatabase (c : Client) : String :=
  if c.connected then c.database else ""

/-- `Client.Close` from the source: every path through it ends with
`this.client = nil`. -/
def Client.Close (c : Client) : Client := { c with connected := false }

/-- Counterexample to claim C2: a DataSource with an absent database and a
present retention policy renders with no leading placeholder segment. -/
theorem c2_counterexample :
    DataSource.toString ⟨"measurement", "", "retention_policy"⟩
      = "retention_policy.measurement" ∧
    DataSource.toString ⟨"measurement", "", "retention_policy"⟩
      ≠ "\"\".retention_policy.measurement" ∧
    DataSource.toString ⟨"measurement", "", "retention_policy"⟩
      ≠ ".retention_policy.measurement" := by
  refine ⟨by decide, by decide, by decide⟩

/-- Claim C2 as amended: when the database is absent, no placeholder segment
is emitted; the rendering is just the quoted retention policy, a dot, and
the quoted measurement. -/
theorem c2_amended (rp m : String) (hrp : rp ≠ "") (hm : m ≠ "") :
    DataSource.toString ⟨m, "", rp⟩ = QuoteIdentifier rp ++ "." ++ QuoteIdentifier m := by
  simp [DataSource.toString, hrp, hm, join]

/-- Witness for the amended claim C2 at the spec's own example input. -/
theorem c2_witness :
    DataSource.toString ⟨"measurement", "", "retention_policy"⟩
      = QuoteIdentifier "retention_policy" ++ "." ++ QuoteIdentifier "measurement" :=
  c2_amended "retention_policy" "measurement" (by decide) (by decide)

/-- Counterexample to claim C3: a DataSource with database `db` and
measurement `m` renders as `db..m` — an empty placeholder segment for the
absent retention policy, and bare identifiers left unquoted — not as
`"db"."m"` and not as `db.m`. -/
theorem c3_counterexample :
    DataSource.toString ⟨"m", "db", ""⟩ = "db..m" ∧
    DataSource.toString ⟨"m", "db", ""⟩ ≠ "\"db\".\"m\"" ∧
    DataSource.toString ⟨"m", "db", ""⟩ ≠ "db.m" := by
  refine ⟨by decide, by decide, by decide⟩

/-- Claim C3 as amended: the three example DataSource values render as
`db..m`, `m` and `db.rp.m`: each segment goes through the quoter, which
leaves these bare identifiers unquoted, and a database with an absent
retention policy contributes an empty placeholder segment. -/
theorem c3_amended :
    DataSource.toString ⟨"m", "db", ""⟩ = "db..m" ∧
    DataSource.toString ⟨"m", "", ""⟩ = "m" ∧
    DataSource.toString ⟨"m", "db", "rp"⟩ = "db.rp.m" := by
  refine ⟨by decide, by decide, by decide⟩

/-- Counterexample to claim C4: the statement over the single measurement
`cpu` with limit 10 and offset 5 renders with `cpu` unquoted (it is a bare
identifier), not as `FROM "cpu"`. -/
theorem c4_counterexample :
    (Select [⟨"cpu", "", ""⟩]).map (fun st => ((st.Limit 10).Offset 5).Statement)
      = some "SELECT * FROM cpu LIMIT 10 OFFSET 5" ∧
    (Select [⟨"cpu", "", ""⟩]).map (fun st => ((st.Limit 10).Offset 5).Statement)
      ≠ some "SELECT * FROM \"cpu\" LIMIT 10 OFFSET 5" := by
  refine ⟨by decide, by decide⟩

/-- Claim C4 as amended: the statement renders to exactly
`SELECT * FROM cpu LIMIT 10 OFFSET 5`, with the bare measurement name
unquoted. -/
theorem c4_amended :
    (Select [⟨"cpu", "", ""⟩]).map (fun st => ((st.Limit 10).Offset 5).Statement)
      = some "SELECT * FROM cpu LIMIT 10 OFFSET 5" := by
  decide

/-- Counterexample to claim C5: constructing a statement with zero data
sources returns a nil statement; no error value (and in particular no
`ErrInvalidStatement`, which does not exist in the code) is produced. -/
theorem c5_counterexample : Select ([] : List DataSource) = none := rfl

/-- Claim C5 as amended: construction with zero DataSource values fails at
construction time by returning a nil statement (Go logs an error and
returns nil; there is no `ErrInvalidStatement` error value), while any
non-empty source list yields the statement holding exactly those sources. -/
theorem c5_amended :
    Select ([] : List DataSource) = none ∧
    ∀ (d : DataSource) (ds : List DataSource),
      Select (d :: ds) = some ⟨d :: ds, none, none⟩ := by
  refine ⟨rfl, ?_⟩
  intro d ds
  simp [Select]

/-- Claim C6, code bug: zero limit and offset do render as absent
(`offsetlimit.String` is empty when both are zero), but an explicitly set
zero limit leaves the offsetlimit struct allocated, so `s.Statement`
appends a separating space before the empty clause and the rendered text
ends with a trailing space. -/
theorem c6_trailing_space :
    (Select [⟨"cpu", "", ""⟩]).map (fun st => (st.Limit 0).Statement)
      = some "SELECT * FROM cpu " ∧
    OffsetLimit.toString ⟨0, 0⟩ = "" := by
  refine ⟨by decide, by decide⟩

/-- Counterexample to claim C1: a mapped Table with two columns whose first
column name equals the expected one is not rejected — with no rows,
`queryScalar` succeeds with an empty list instead of failing with
`ErrUnexpectedResponse`. -/
theorem c1_counterexample :
    queryScalarT ⟨"databases", [], ["name", "extra"], [], false⟩ "databases" "name"
      = ScalarResult.ok [] := by
  decide

/-- Claim C1 as amended: with a matching dataset name and a non-empty column
list, `queryScalar` fails with `ErrUnexpectedResponse` when the column count
differs from one AND the first column name differs from the expected one;
when the first column name equals the expected one it proceeds to the row
checks regardless of the column count. -/
theorem c1_amended (t : Table) (dataset column c0 : String) (cs : List String)
    (hname : t.name = dataset) (hcols : t.columns = c0 :: cs) :
    (c0 ≠ column → t.columns.length ≠ 1 →
      queryScalarT t dataset column = ScalarResult.err Err.unexpectedResponse) ∧
    (c0 = column →
      queryScalarT t dataset column = ScalarResult.ofExcept (collectScalars t.values)) := by
  constructor
  · intro hne hlen
    unfold queryScalarT
    rw [if_pos hname, if_neg hlen, hcols]
    simp only []
    rw [if_neg hne]
  · intro heq
    by_cases hlen : t.columns.length = 1
    · unfold queryScalarT
      rw [if_pos hname, if_pos hlen]
    · unfold queryScalarT
      rw [if_pos hname, if_neg hlen, hcols]
      simp only []
      rw [if_pos heq]

/-- Witness for the amended claim C1: two columns led by the expected name
pass the column check and reach the row loop. -/
theorem c1_witness :
    queryScalarT ⟨"databases", [], ["name", "x"], [], false⟩ "databases" "name"
      = ScalarResult.ofExcept (collectScalars []) :=
  (c1_amended ⟨"databases", [], ["name", "x"], [], false⟩
    "databases" "name" "name" ["x"] rfl rfl).2 rfl

/-- Claim C8: `Query` fails with `ErrEmptyResponse` exactly when the decoded
response has other than exactly one result or that one result has zero
series, and otherwise copies the first series' name, tags, columns, values
and partial flag verbatim into the returned Table. -/
theorem c8_query_mapping (r : Response) :
    (Query r = Except.error Err.emptyResponse ↔
      r.results.length ≠ 1 ∨ ∃ res, r.results = [res] ∧ res.series = []) ∧
    (∀ res srs rest, r.results = [res] → res.series = srs :: rest →
      Query r = Except.ok ⟨srs.name, srs.tags, srs.columns, srs.values, srs.truncated⟩) := by
  obtain ⟨results⟩ := r
  constructor
  · cases results with
    | nil => simp [Query]
    | cons a as =>
      cases as with
      | nil =>
        cases hs : a.series with
        | nil => simp [Query, hs]
        | cons srs rest => simp [Query, hs]
      | cons b bs => simp [Query]
  · intro res srs rest h1 h2
    simp only [] at h1
    subst h1
    simp [Query, h2]

/-- Witness for claim C8: a single-result, single-series response maps to
the verbatim Table. -/
theorem c8_witness :
    Query ⟨[⟨[⟨"databases", [], ["name"], [[Value.str "db1"]], false⟩]⟩]⟩
      = Except.ok ⟨"databases", [], ["name"], [[Value.str "db1"]], false⟩ :=
  (c8_query_mapping ⟨[⟨[⟨"databases", [], ["name"], [[Value.str "db1"]], false⟩]⟩]⟩).2
    ⟨[⟨"databases", [], ["name"], [[Value.str "db1"]], false⟩]⟩
    ⟨"databases", [], ["name"], [[Value.str "db1"]], false⟩ [] rfl rfl

theorem ofExcept_ne_outOfBounds (e : Except Err (List String)) :
    ScalarResult.ofExcept e ≠ ScalarResult.outOfBounds := by
  cases e <;> simp [ScalarResult.ofExcept]

/-- Claim C9: the column validation of `queryScalar` indexes the first
column whenever the count is not one, so an empty column list panics (is
out of bounds) exactly there; with at least one column name present no
out-of-bounds access can occur. -/
theorem c9_scalar_columns_safety :
    (∀ (t : Table) (dataset column : String), t.columns ≠ [] →
      queryScalarT t dataset column ≠ ScalarResult.outOfBounds) ∧
    queryScalarT ⟨"databases", [], [], [], false⟩ "databases" "name"
      = ScalarResult.outOfBounds := by
  constructor
  · intro t dataset column hcols
    unfold queryScalarT
    by_cases h1 : t.name = dataset
    · rw [if_pos h1]
      by_cases h2 : t.columns.length = 1
      · rw [if_pos h2]
        exact ofExcept_ne_outOfBounds _
      · rw [if_neg h2]
        cases hc : t.columns with
        | nil => exact absurd hc hcols
        | cons c0 rest =>
          simp only [hc]
          by_cases h3 : c0 = column
          · rw [if_pos h3]
            exact ofExcept_ne_outOfBounds _
          · rw [if_neg h3]
            simp
    · rw [if_neg h1]
      simp
  · rfl

/-- Witness for claim C9: a table carrying one column name cannot trigger
the out-of-bounds access. -/
theorem c9_witness :
    queryScalarT ⟨"databases", [], ["name"], [], false⟩ "x" "y"
      ≠ ScalarResult.outOfBounds :=
  c9_scalar_columns_safety.1 ⟨"databases", [], ["name"], [], false⟩ "x" "y" (by decide)

/-- Claim C10: with no live transport handle `GetVersion` and `GetDatabase`
return the empty string even when a version or database was recorded —
in particular right after `Close` — and with a live handle they return the
stored values. -/
theorem c10_disconnected_getters (c : Client) :
    (c.connected = false → c.GetVersion = "" ∧ c.GetDatabase = "") ∧
    (c.connected = true → c.GetVersion = c.version ∧ c.GetDatabase = c.database) ∧
    ((c.Close).GetVersion = "" ∧ (c.Close).GetDatabase = "") := by
  refine ⟨?_, ?_, ?_⟩
  · intro h
    simp [Client.GetVersion, Client.GetDatabase, h]
  · intro h
    simp [Client.GetVersion, Client.GetDatabase, h]
  · simp [Client.GetVersion, Client.GetDatabase, Client.Close]

/-- Witness for claim C10: a closed client with recorded version and
database still reports empty strings. -/
theorem c10_witness :
    Client.GetVersion ⟨false, "mydb", "1.4"⟩ = "" ∧
    Client.GetDatabase ⟨false, "mydb", "1.4"⟩ = "" :=
  (c10_disconnected_getters ⟨false, "mydb", "1.4"⟩).1 rfl

end Influx
